import Mathlib

/-!
Verification development for the SCIA (SQL Change Impact Analyzer) core.

Each Python module under `src/scia/` that the claims touch is shallowly
embedded below: pure functions become Lean functions, Python exceptions are
modelled with `Except PyExc`, Python dictionaries (which preserve insertion
order) become ordered association lists, and Python sets (used only for
membership tests, with unspecified iteration order) become lists queried by
membership.  Python string methods used by the source (`upper`, `lower`,
`split`, `startswith`, `endswith`, `in`, `isalnum`, `replace`) are given
character-list based equivalents so that every definition evaluates inside
the kernel.  External libraries (sqlglot, the filesystem, warehouse
adapters) are abstracted as explicit function or data parameters of the
functions that call them, mirroring exactly how the source consumes their
results.
-/

/-- Python exceptions that the embedded code can raise or catch.
`attributeError s` models `AttributeError` raised when attribute `s` is
missing; `parseError` models `sqlglot.errors.ParseError`, which derives from
`Exception` directly and not from any of `AttributeError`, `ValueError`,
`TypeError`. -/
inductive PyExc where
  | attributeError (attr : String)
  | valueError
  | typeError
  | parseError
  | otherError (msg : String)
deriving DecidableEq, Repr

/-- Character-level model of Python `str.upper` (identifiers in scope are
ASCII, where `Char.toUpper` agrees with Python). -/
def pyUpper (s : String) : String := ⟨s.data.map Char.toUpper⟩

/-- Character-level model of Python `str.lower`. -/
def pyLower (s : String) : String := ⟨s.data.map Char.toLower⟩

/-- Splitting a character list at every occurrence of `c`; models Python
`str.split(c)` (for a single-character separator): the result is never
empty and empty input yields one empty piece. -/
def splitOnChar (c : Char) : List Char → List (List Char)
  | [] => [[]]
  | a :: rest =>
    match splitOnChar c rest with
    | [] => [[a]]
    | h :: t => if a = c then [] :: h :: t else (a :: h) :: t

/-- Python `s.split('.')` as a list of strings. -/
def pySplitDot (s : String) : List String :=
  (splitOnChar '.' s.data).map (fun l => ⟨l⟩)

/-- Python `c in s` for a single character. -/
def pyContainsChar (s : String) (c : Char) : Bool := s.data.contains c

/-- Python `s.startswith(p)`. -/
def pyStartsWith (s p : String) : Bool := p.data.isPrefixOf s.data

/-- Python `s.endswith(p)`. -/
def pyEndsWith (s p : String) : Bool := p.data.isSuffixOf s.data

/-- Python truthiness of an optional string: `None` and `""` are falsy. -/
def optStrTruthy : Option String → Bool
  | none => false
  | some s => s ≠ ""

/-! ## Schema model (`src/scia/models/schema.py`) -/

/-- `ColumnSchema` from `scia/models/schema.py`. -/
structure ColumnSchema where
  database_name : Option String := none
  schema_name : String
  table_name : String
  column_name : String
  data_type : String
  is_nullable : Bool
  ordinal_position : Int
deriving DecidableEq, Repr

/-- `TableSchema` from `scia/models/schema.py`. -/
structure TableSchema where
  database_name : Option String := none
  schema_name : String
  table_name : String
  columns : List ColumnSchema
deriving DecidableEq, Repr

/-! ## Ordered dictionaries

Python `dict` preserves insertion order; updating an existing key keeps its
position, inserting a new key appends it.  Association lists with the two
operations below model exactly that. -/

/-- Lookup in an ordered association list (first matching key). -/
def alookup {α : Type} (m : List (String × α)) (k : String) : Option α :=
  match m with
  | [] => none
  | (k', v) :: rest => if k' = k then some v else alookup rest k

/-- Python `d[k] = v`: replace in place if the key exists, append otherwise. -/
def aupsert {α : Type} (m : List (String × α)) (k : String) (v : α) :
    List (String × α) :=
  match m with
  | [] => [(k, v)]
  | (k', v') :: rest =>
    if k' = k then (k', v) :: rest else (k', v') :: aupsert rest k v

/-- Keys of an association list. -/
def akeys {α : Type} (m : List (String × α)) : List String := m.map Prod.fst

/-- Iteration order of `set(xs) | set(ys)` is unspecified in Python; the
differ only folds over this union, and the model fixes the deterministic
left-to-right order: keys of `xs` first, then new keys of `ys`. -/
def unionKeys (xs ys : List String) : List String :=
  xs ++ ys.filter (fun k => !(decide (k ∈ xs)))

/-! ## Hierarchical differ (`src/scia/core/diff.py`) -/

/-- `SchemaChange` from `scia/core/diff.py`.  `before`/`after` are typed
`Any` in the source and only ever hold column payloads. -/
structure SchemaChange where
  object_type : String
  schema_name : String
  table_name : Option String := none
  column_name : Option String := none
  change_type : String
  before : Option ColumnSchema := none
  after : Option ColumnSchema := none
deriving DecidableEq, Repr

/-- `SchemaDiff` from `scia/core/diff.py`. -/
structure SchemaDiff where
  changes : List SchemaChange
deriving DecidableEq, Repr

/-- `{t.table_name: t for t in ts}` (and the analogous column map):
ordered dict built left to right, later duplicates replacing earlier
values in place. -/
def buildMap {α : Type} (key : α → String) (xs : List α) : List (String × α) :=
  xs.foldl (fun m x => aupsert m (key x) x) []

/-- One step of the grouping loop `before_schemas.setdefault(s, []).append(t)`. -/
def addToGroup (m : List (String × List TableSchema)) (t : TableSchema) :
    List (String × List TableSchema) :=
  match alookup m t.schema_name with
  | some ts => aupsert m t.schema_name (ts ++ [t])
  | none => m ++ [(t.schema_name, [t])]

/-- Grouping a table list by `schema_name`, preserving first-seen order. -/
def groupTables (ts : List TableSchema) : List (String × List TableSchema) :=
  ts.foldl addToGroup []

/-- Column-level comparison `_process_column_level_diff` from
`scia/core/diff.py`: emitted changes for one column name. -/
def columnChange (schema_name table_name col_name : String)
    (b_col a_col : Option ColumnSchema) : List SchemaChange :=
  match b_col, a_col with
  | some b, none =>
    [{ object_type := "COLUMN", schema_name := schema_name,
       table_name := some table_name, column_name := some col_name,
       change_type := "REMOVED", before := some b }]
  | none, some a =>
    [{ object_type := "COLUMN", schema_name := schema_name,
       table_name := some table_name, column_name := some col_name,
       change_type := "ADDED", after := some a }]
  | some b, some a =>
    if b.data_type ≠ a.data_type then
      [{ object_type := "COLUMN", schema_name := schema_name,
         table_name := some table_name, column_name := some col_name,
         change_type := "TYPE_CHANGED", before := some b, after := some a }]
    else if b.is_nullable ≠ a.is_nullable then
      [{ object_type := "COLUMN", schema_name := schema_name,
         table_name := some table_name, column_name := some col_name,
         change_type := "NULLABILITY_CHANGED", before := some b,
         after := some a }]
    else []
  | none, none => []

/-- `_process_column_level_diff` from `scia/core/diff.py`: compare the
columns of a table present on both sides. -/
def process_column_level_diff (schema_name table_name : String)
    (before_table after_table : TableSchema) : List SchemaChange :=
  let before_cols := buildMap (fun c => c.column_name) before_table.columns
  let after_cols := buildMap (fun c => c.column_name) after_table.columns
  (unionKeys (akeys before_cols) (akeys after_cols)).flatMap (fun col_name =>
    columnChange schema_name table_name col_name
      (alookup before_cols col_name) (alookup after_cols col_name))

/-- Table-level comparison inside a schema shared by both sides
(`diff_schemas`, second level). -/
def tableChange (schema_name table_name : String)
    (b_table a_table : Option TableSchema) : List SchemaChange :=
  match b_table, a_table with
  | some _, none =>
    [{ object_type := "TABLE", schema_name := schema_name,
       table_name := some table_name, change_type := "REMOVED" }]
  | none, some _ =>
    [{ object_type := "TABLE", schema_name := schema_name,
       table_name := some table_name, change_type := "ADDED" }]
  | some bt, some at_ =>
    process_column_level_diff schema_name table_name bt at_
  | none, none => []

/-- Tables of a shared schema compared by name (`diff_schemas`, level 2-3). -/
def diffSharedSchema (schema_name : String)
    (b_tables a_tables : List TableSchema) : List SchemaChange :=
  let before_table_map := buildMap (fun t => t.table_name) b_tables
  let after_table_map := buildMap (fun t => t.table_name) a_tables
  (unionKeys (akeys before_table_map) (akeys after_table_map)).flatMap
    (fun table_name =>
      tableChange schema_name table_name
        (alookup before_table_map table_name)
        (alookup after_table_map table_name))

/-- Schema-level comparison for one schema name (`diff_schemas`, level 1).
Groups are built by appending, so a present group is never the empty list
and Python truthiness coincides with `Option` matching. -/
def schemaChangeFor (schema_name : String)
    (b_tables a_tables : Option (List TableSchema)) : List SchemaChange :=
  match b_tables, a_tables with
  | some _, none =>
    [{ object_type := "SCHEMA", schema_name := schema_name,
       change_type := "REMOVED" }]
  | none, some _ =>
    [{ object_type := "SCHEMA", schema_name := schema_name,
       change_type := "ADDED" }]
  | some bt, some at_ => diffSharedSchema schema_name bt at_
  | none, none => []

/-- `diff_schemas` from `scia/core/diff.py`: hierarchical comparison of two
table lists. -/
def diff_schemas (before after : List TableSchema) : SchemaDiff :=
  let before_schemas := groupTables before
  let after_schemas := groupTables after
  let all_schema_names := unionKeys (akeys before_schemas) (akeys after_schemas)
  ⟨all_schema_names.flatMap (fun schema_name =>
      schemaChangeFor schema_name
        (alookup before_schemas schema_name)
        (alookup after_schemas schema_name))⟩

/-! ## Finding model (`src/scia/models/finding.py`) -/

/-- `FindingType` from `scia/models/finding.py`.  The enum declares exactly
these six members; in particular it has no `SCHEMA_REMOVED`,
`SCHEMA_ADDED`, `TABLE_REMOVED`, `TABLE_ADDED` or `COLUMN_ADDED` member. -/
inductive FindingType where
  | COLUMN_REMOVED
  | COLUMN_TYPE_CHANGED
  | COLUMN_NULLABILITY_CHANGED
  | JOIN_KEY_CHANGED
  | GRAIN_CHANGE
  | POTENTIAL_BREAKAGE
deriving DecidableEq, Repr

/-- Attribute lookup on the `FindingType` enum class, member name to member;
the table is read off the class body in `scia/models/finding.py`. -/
def findingTypeMember : String → Option FindingType
  | "COLUMN_REMOVED" => some FindingType.COLUMN_REMOVED
  | "COLUMN_TYPE_CHANGED" => some FindingType.COLUMN_TYPE_CHANGED
  | "COLUMN_NULLABILITY_CHANGED" => some FindingType.COLUMN_NULLABILITY_CHANGED
  | "JOIN_KEY_CHANGED" => some FindingType.JOIN_KEY_CHANGED
  | "GRAIN_CHANGE" => some FindingType.GRAIN_CHANGE
  | "POTENTIAL_BREAKAGE" => some FindingType.POTENTIAL_BREAKAGE
  | _ => none

/-- `FindingType.<name>` as evaluated by Python: a missing member raises
`AttributeError`. -/
def mkFindingType (name : String) : Except PyExc FindingType :=
  match findingTypeMember name with
  | some ft => Except.ok ft
  | none => Except.error (PyExc.attributeError name)

/-- `Severity` from `scia/models/finding.py`. -/
inductive Severity where
  | LOW
  | MEDIUM
  | HIGH
deriving DecidableEq, Repr

/-- `Finding` from `scia/models/finding.py`.  Evidence is a string-keyed
mapping whose values are strings or `None` (modelled `Option String`); the
model declares exactly the fields of the pydantic class — in particular
there is no `risk_score` field. -/
structure Finding where
  finding_type : FindingType
  severity : Severity
  base_risk : Int
  evidence : List (String × Option String)
  confidence : Option Rat := some 1
  description : String
deriving DecidableEq, Repr

/-- Attribute access `f.risk_score` on a `Finding`: the pydantic model in
`scia/models/finding.py` declares no such field (and its config does not
allow extra fields), so the access raises `AttributeError`. -/
def finding_risk_score (_f : Finding) : Except PyExc Int :=
  Except.error (PyExc.attributeError "risk_score")

/-- `DependencyObject` from `scia/models/finding.py` (the pydantic attribute
is `schema_name`, with the alias `schema` accepted at construction). -/
structure DependencyObject where
  object_type : String
  name : String
  schema_name : String
  is_critical : Bool := false
deriving DecidableEq, Repr

/-- `ImpactDetail` from `scia/models/finding.py`.  The pydantic class
declares exactly these four fields: there is no `upstream_dependencies`
and no `downstream_tables` field. -/
structure ImpactDetail where
  direct_dependents : List DependencyObject := []
  transitive_dependents : List DependencyObject := []
  affected_applications : List String := []
  estimated_blast_radius : Int := 0
deriving DecidableEq, Repr

/-- The `ImpactDetail(...)` constructor call in `scia/core/analyze.py`
(lines 66-72), which passes the keyword arguments `direct_dependents`,
`transitive_dependents`, `upstream_dependencies`, `affected_applications`
and `estimated_blast_radius`.  Because the class declares no
`upstream_dependencies` field and pydantic v2 by default ignores unknown
keyword arguments, the `upstream` argument is silently dropped. -/
def impactDetail_init (direct transitive upstream : List DependencyObject)
    (affected : List String) (blast : Int) : ImpactDetail :=
  let _ := upstream
  { direct_dependents := direct, transitive_dependents := transitive,
    affected_applications := affected, estimated_blast_radius := blast }

/-! ## SQL signal extraction (`src/scia/sql/parser.py`, `heuristics.py`) -/

/-- `SQLMetadata` from `scia/sql/parser.py`.  The Python sets `tables`,
`columns`, `group_by_cols` are only tested for membership downstream, so
lists suffice. -/
structure SQLMetadata where
  tables : List String := []
  columns : List String := []
  join_keys : List (String × String) := []
  group_by_cols : List String := []
deriving DecidableEq, Repr

/-- The exception classes named by the clause
`except (AttributeError, ValueError, TypeError)` in `parse_sql`
(`scia/sql/parser.py` line 61).  `sqlglot.errors.ParseError` derives from
`Exception` directly, so it is not among them. -/
def caughtByParseSql : PyExc → Bool
  | PyExc.attributeError _ => true
  | PyExc.valueError => true
  | PyExc.typeError => true
  | _ => false

/-- `parse_sql` from `scia/sql/parser.py`.  The try-body — `sqlglot.parse`
followed by `_extract_metadata` over the parsed expressions — is abstracted
as the function `body` from the SQL text to its outcome; the except clause
converts only the three listed exception classes into `None`, all others
propagate. -/
def parse_sql (body : String → Except PyExc SQLMetadata) (sql : String) :
    Except PyExc (Option SQLMetadata) :=
  match body sql with
  | Except.ok m => Except.ok (some m)
  | Except.error e =>
    if caughtByParseSql e then Except.ok none else Except.error e

/-- `extract_signals` from `scia/sql/heuristics.py`: per named statement,
`parse_sql`; truthy results are kept under their name, `None` results are
skipped.  An exception escaping `parse_sql` propagates out of the loop. -/
def extract_signals (body : String → Except PyExc SQLMetadata)
    (sql_definitions : List (String × String)) :
    Except PyExc (List (String × SQLMetadata)) :=
  sql_definitions.foldlM (fun signals nmsql => do
    let metadata ← parse_sql body nmsql.2
    match metadata with
    | some m => pure (signals ++ [(nmsql.1, m)])
    | none => pure signals) []

/-! ## Rule engine (`src/scia/core/rules.py`) -/

/-- Python truthiness of the optional `sql_signals` dict: `None` and the
empty dict are falsy. -/
def signalsTruthy : Option (List (String × SQLMetadata)) → Bool
  | none => false
  | some sigs => sigs ≠ []

/-- `change.column_name.upper()`: `column_name` is optional, and Python
would raise on `None` (`NoneType` has no attribute `upper`). -/
def upperOfOpt : Option String → Except PyExc String
  | some s => Except.ok (pyUpper s)
  | none => Except.error (PyExc.attributeError "upper")

/-- `col.data_type` on the optional `before`/`after` payload of a change. -/
def dataTypeOfOpt : Option ColumnSchema → Except PyExc String
  | some c => Except.ok c.data_type
  | none => Except.error (PyExc.attributeError "data_type")

/-- `referenced_columns` in `rule_column_type_changed`: upper-cased column
names of every signal (a Python set; only membership is used). -/
def collectSignalColumns : Option (List (String × SQLMetadata)) → List String
  | none => []
  | some sigs =>
    sigs.foldl (fun acc nmmd => acc ++ nmmd.2.columns.map pyUpper) []

/-- `joining_columns` in `rule_join_key_changed`: both components of every
join-key pair of every signal, upper-cased. -/
def collectJoinColumns (sigs : List (String × SQLMetadata)) : List String :=
  sigs.foldl (fun acc nmmd =>
    acc ++ nmmd.2.join_keys.foldl
      (fun a kp => a ++ [pyUpper kp.1, pyUpper kp.2]) []) []

/-- `grouping_columns` in `rule_grain_change`. -/
def collectGroupColumns (sigs : List (String × SQLMetadata)) : List String :=
  sigs.foldl (fun acc nmmd => acc ++ nmmd.2.group_by_cols.map pyUpper) []

/-- `rule_schema_removed` from `scia/core/rules.py`: it builds its finding
with `FindingType.SCHEMA_REMOVED`, a member the enum does not declare. -/
def rule_schema_removed (diff : SchemaDiff) : Except PyExc (List Finding) :=
  diff.changes.foldlM (fun findings change =>
    if change.object_type = "SCHEMA" ∧ change.change_type = "REMOVED" then do
      let ft ← mkFindingType "SCHEMA_REMOVED"
      let f : Finding :=
        { finding_type := ft, severity := Severity.HIGH, base_risk := 100,
          evidence := [("schema", some change.schema_name)],
          description := "Schema " ++ change.schema_name ++ " was removed." }
      pure (findings ++ [f])
    else pure findings) []

/-- `rule_schema_added` from `scia/core/rules.py` (uses the undeclared
member `SCHEMA_ADDED`). -/
def rule_schema_added (diff : SchemaDiff) : Except PyExc (List Finding) :=
  diff.changes.foldlM (fun findings change =>
    if change.object_type = "SCHEMA" ∧ change.change_type = "ADDED" then do
      let ft ← mkFindingType "SCHEMA_ADDED"
      let f : Finding :=
        { finding_type := ft, severity := Severity.LOW, base_risk := 0,
          evidence := [("schema", some change.schema_name)],
          description := "New schema " ++ change.schema_name ++ " was added." }
      pure (findings ++ [f])
    else pure findings) []

/-- `rule_table_removed` from `scia/core/rules.py` (uses the undeclared
member `TABLE_REMOVED`). -/
def rule_table_removed (diff : SchemaDiff) : Except PyExc (List Finding) :=
  diff.changes.foldlM (fun findings change =>
    if change.object_type = "TABLE" ∧ change.change_type = "REMOVED" then do
      let ft ← mkFindingType "TABLE_REMOVED"
      let f : Finding :=
        { finding_type := ft, severity := Severity.HIGH, base_risk := 90,
          evidence := [("schema", some change.schema_name),
                       ("table", change.table_name)],
          description := "Table was removed from schema "
            ++ change.schema_name ++ "." }
      pure (findings ++ [f])
    else pure findings) []

/-- `rule_table_added` from `scia/core/rules.py` (uses the undeclared
member `TABLE_ADDED`). -/
def rule_table_added (diff : SchemaDiff) : Except PyExc (List Finding) :=
  diff.changes.foldlM (fun findings change =>
    if change.object_type = "TABLE" ∧ change.change_type = "ADDED" then do
      let ft ← mkFindingType "TABLE_ADDED"
      let f : Finding :=
        { finding_type := ft, severity := Severity.LOW, base_risk := 0,
          evidence := [("schema", some change.schema_name),
                       ("table", change.table_name)],
          description := "New table was added to schema "
            ++ change.schema_name ++ "." }
      pure (findings ++ [f])
    else pure findings) []

/-- `rule_column_removed` from `scia/core/rules.py` (member
`COLUMN_REMOVED` exists). -/
def rule_column_removed (diff : SchemaDiff) : Except PyExc (List Finding) :=
  diff.changes.foldlM (fun findings change =>
    if change.object_type = "COLUMN" ∧ change.change_type = "REMOVED" then do
      let ft ← mkFindingType "COLUMN_REMOVED"
      let f : Finding :=
        { finding_type := ft, severity := Severity.HIGH, base_risk := 80,
          evidence := [("schema", some change.schema_name),
                       ("table", change.table_name),
                       ("column", change.column_name)],
          description := "Column removed from table." }
      pure (findings ++ [f])
    else pure findings) []

/-- `rule_column_added` from `scia/core/rules.py` (uses the undeclared
member `COLUMN_ADDED`). -/
def rule_column_added (diff : SchemaDiff) : Except PyExc (List Finding) :=
  diff.changes.foldlM (fun findings change =>
    if change.object_type = "COLUMN" ∧ change.change_type = "ADDED" then do
      let ft ← mkFindingType "COLUMN_ADDED"
      let f : Finding :=
        { finding_type := ft, severity := Severity.LOW, base_risk := 0,
          evidence := [("schema", some change.schema_name),
                       ("table", change.table_name),
                       ("column", change.column_name)],
          description := "New column added to table." }
      pure (findings ++ [f])
    else pure findings) []

/-- `rule_column_type_changed` from `scia/core/rules.py`.  The risk bump to
50 fires when signals are truthy and the upper-cased column name occurs in
any signal's `columns` (Python short-circuits, so `.upper()` is only
evaluated when signals are truthy). -/
def rule_column_type_changed (diff : SchemaDiff)
    (sql_signals : Option (List (String × SQLMetadata))) :
    Except PyExc (List Finding) :=
  let referenced_columns := collectSignalColumns sql_signals
  diff.changes.foldlM (fun findings change =>
    if change.object_type = "COLUMN" ∧ change.change_type = "TYPE_CHANGED"
    then do
      let bumped ←
        if signalsTruthy sql_signals then do
          let cu ← upperOfOpt change.column_name
          pure (referenced_columns.contains cu)
        else pure false
      let risk : Int := if bumped then 50 else 40
      let before_dt ← dataTypeOfOpt change.before
      let after_dt ← dataTypeOfOpt change.after
      let ft ← mkFindingType "COLUMN_TYPE_CHANGED"
      let f : Finding :=
        { finding_type := ft, severity := Severity.MEDIUM, base_risk := risk,
          evidence := [("schema", some change.schema_name),
                       ("table", change.table_name),
                       ("column", change.column_name),
                       ("before", some before_dt),
                       ("after", some after_dt)],
          description := "Column type changed from " ++ before_dt ++ " to "
            ++ after_dt ++ "." }
      pure (findings ++ [f])
    else pure findings) []

/-- `rule_nullability_changed` from `scia/core/rules.py`: only the
nullable-to-NOT-NULL direction produces a finding (member
`COLUMN_NULLABILITY_CHANGED` exists). -/
def rule_nullability_changed (diff : SchemaDiff) :
    Except PyExc (List Finding) :=
  diff.changes.foldlM (fun findings change =>
    if change.object_type = "COLUMN"
       ∧ change.change_type = "NULLABILITY_CHANGED" then do
      let before_nullable ←
        match change.before with
        | some c => Except.ok c.is_nullable
        | none => Except.error (PyExc.attributeError "is_nullable")
      let after_nullable ←
        if before_nullable = true then
          match change.after with
          | some c => Except.ok c.is_nullable
          | none => Except.error (PyExc.attributeError "is_nullable")
        else pure true
      if before_nullable = true ∧ after_nullable = false then do
        let ft ← mkFindingType "COLUMN_NULLABILITY_CHANGED"
        let f : Finding :=
          { finding_type := ft, severity := Severity.MEDIUM, base_risk := 50,
            evidence := [("schema", some change.schema_name),
                         ("table", change.table_name),
                         ("column", change.column_name)],
            description := "Column changed from NULL to NOT NULL." }
        pure (findings ++ [f])
      else pure findings
    else pure findings) []

/-- `rule_join_key_changed` from `scia/core/rules.py`: with truthy signals,
a COLUMN change whose upper-cased name occurs among the join-key columns
and whose kind is REMOVED or TYPE_CHANGED yields a HIGH/90 finding. -/
def rule_join_key_changed (diff : SchemaDiff)
    (sql_signals : Option (List (String × SQLMetadata))) :
    Except PyExc (List Finding) :=
  if ¬signalsTruthy sql_signals then Except.ok []
  else
    let joining_columns := collectJoinColumns (sql_signals.getD [])
    diff.changes.foldlM (fun findings change =>
      if change.object_type = "COLUMN" then do
        let cu ← upperOfOpt change.column_name
        if joining_columns.contains cu
           ∧ (change.change_type = "REMOVED"
              ∨ change.change_type = "TYPE_CHANGED") then do
          let ft ← mkFindingType "JOIN_KEY_CHANGED"
          let f : Finding :=
            { finding_type := ft, severity := Severity.HIGH, base_risk := 90,
              evidence := [("schema", some change.schema_name),
                           ("table", change.table_name),
                           ("column", change.column_name),
                           ("change_type", some change.change_type)],
              description := "Column is used as a JOIN key and was "
                ++ pyLower change.change_type ++ "." }
          pure (findings ++ [f])
        else pure findings
      else pure findings) []

/-- `rule_grain_change` from `scia/core/rules.py`: with truthy signals, a
COLUMN REMOVED change on a GROUP BY column yields a MEDIUM/60 finding. -/
def rule_grain_change (diff : SchemaDiff)
    (sql_signals : Option (List (String × SQLMetadata))) :
    Except PyExc (List Finding) :=
  if ¬signalsTruthy sql_signals then Except.ok []
  else
    let grouping_columns := collectGroupColumns (sql_signals.getD [])
    diff.changes.foldlM (fun findings change =>
      if change.object_type = "COLUMN" ∧ change.change_type = "REMOVED"
      then do
        let cu ← upperOfOpt change.column_name
        if grouping_columns.contains cu then do
          let ft ← mkFindingType "GRAIN_CHANGE"
          let f : Finding :=
            { finding_type := ft, severity := Severity.MEDIUM, base_risk := 60,
              evidence := [("schema", some change.schema_name),
                           ("table", change.table_name),
                           ("column", change.column_name)],
              description := "Column is used in GROUP BY clauses." }
          pure (findings ++ [f])
        else pure findings
      else pure findings) []

/-- `apply_rules` from `scia/core/rules.py`: the rules of `ALL_RULES` run
in their fixed order, outputs are concatenated, and an exception raised by
any rule propagates out of the engine.  The reflective signature check
only decides which rules receive `sql_signals`. -/
def apply_rules (diff : SchemaDiff)
    (sql_signals : Option (List (String × SQLMetadata))) :
    Except PyExc (List Finding) := do
  let f1 ← rule_schema_removed diff
  let f2 ← rule_schema_added diff
  let f3 ← rule_table_removed diff
  let f4 ← rule_table_added diff
  let f5 ← rule_column_removed diff
  let f6 ← rule_column_added diff
  let f7 ← rule_column_type_changed diff sql_signals
  let f8 ← rule_nullability_changed diff
  let f9 ← rule_join_key_changed diff sql_signals
  let f10 ← rule_grain_change diff sql_signals
  pure (f1 ++ f2 ++ f3 ++ f4 ++ f5 ++ f6 ++ f7 ++ f8 ++ f9 ++ f10)

/-! ## Risk aggregation (`src/scia/core/risk.py`) -/

/-- The aggregate state built by `RiskAssessment.__init__`. -/
structure RiskAssessment where
  findings : List Finding
  warnings : List String
  risk_score : Int
  classification : String
deriving DecidableEq, Repr

/-- `sum(f.risk_score for f in findings if f.risk_score is not None)` from
`RiskAssessment.__init__`: each term reads the `risk_score` attribute of a
`Finding` (see `finding_risk_score`). -/
def raw_total : List Finding → Except PyExc Int
  | [] => Except.ok 0
  | f :: rest => do
    let rs ← finding_risk_score f
    let tail ← raw_total rest
    pure (rs + tail)

/-- `RiskAssessment._classify` from `scia/core/risk.py`. -/
def classify (findings : List Finding) (score : Int) : String :=
  if score < 15 then "LOW"
  else
    let has_high_finding :=
      findings.any (fun f => decide (f.severity = Severity.HIGH))
    if score < 40 then "MEDIUM"
    else if ¬has_high_finding then "MEDIUM"
    else "HIGH"

/-- `RiskAssessment.__init__` from `scia/core/risk.py`: raw sum of the
findings' `risk_score` attributes, saturating normalization with
sensitivity 100 (`int()` truncates toward zero, which for the nonnegative
quotient is the floor), then classification. -/
def riskAssessment_init (findings : List Finding) (warnings : List String) :
    Except PyExc RiskAssessment := do
  let raw_tot ← raw_total findings
  let score : Int :=
    if raw_tot = 0 then 0 else Int.tdiv (100 * raw_tot) (raw_tot + 100)
  pure { findings := findings, warnings := warnings, risk_score := score,
         classification := classify findings score }

/-! ## DDL parsing (`src/scia/sql/ddl_parser.py`)

The sqlglot AST is external; a statement list is modelled by what the
per-statement handlers extract from it: `create` carries the outcome of
`_handle_create_table` (which catches its own errors, hence an `Option`),
`alter` carries the key produced by `_get_table_key` (already upper-cased,
defaulted to `PUBLIC`, empty on failure) and the recognised actions, and
`unsupportedStmt` stands for every other statement, which is only logged. -/

/-- The ALTER TABLE actions recognised by `_handle_alter_actions`. -/
inductive AlterAction where
  | addColumn (col_name : Option String) (data_type_sql : Option String)
      (not_null : Bool)
  | dropColumn (col_name : String)
  | renameColumn (old_name new_name : String)
  | alterColumn (col_name : String) (dtype_sql : Option String)
      (allow_null : Option Bool)
deriving DecidableEq, Repr

/-- A parsed DDL statement as consumed by `parse_ddl_to_schema`. -/
inductive DDLStmt where
  | create (parsed : Option TableSchema)
  | alter (schema_name table_name : String) (actions : List AlterAction)
  | unsupportedStmt
deriving DecidableEq, Repr

/-- Lookup in an association list keyed by `(schema, table)` pairs. -/
def alookupKT {α : Type} (m : List ((String × String) × α))
    (k : String × String) : Option α :=
  match m with
  | [] => none
  | (k', v) :: rest => if k' = k then some v else alookupKT rest k

/-- Ordered-dict update for `(schema, table)` keys. -/
def aupsertKT {α : Type} (m : List ((String × String) × α))
    (k : String × String) (v : α) : List ((String × String) × α) :=
  match m with
  | [] => [(k, v)]
  | (k', v') :: rest =>
    if k' = k then (k', v) :: rest else (k', v') :: aupsertKT rest k v

/-- `_extract_column_from_columndef` as used by ADD COLUMN: empty or
missing column name yields `None`; the data type defaults to `VARCHAR`;
names and types are stored upper-cased; nullability defaults to true. -/
def extract_column (col_name : Option String) (data_type_sql : Option String)
    (not_null : Bool) (schema_name table_name : String) (ordinal_pos : Int) :
    Option ColumnSchema :=
  match col_name with
  | none => none
  | some nm =>
    if nm = "" then none
    else some { database_name := none, schema_name := schema_name,
                table_name := pyUpper table_name, column_name := pyUpper nm,
                data_type := pyUpper (data_type_sql.getD "VARCHAR"),
                is_nullable := !not_null, ordinal_position := ordinal_pos }

/-- One ALTER action applied to a table (`_handle_add_column`,
`_handle_drop_column`, `_handle_rename_column`, `_handle_modify_column`
from `scia/sql/ddl_parser.py`). -/
def apply_alter_action (schema_name table_name : String) (t : TableSchema) :
    AlterAction → TableSchema
  | AlterAction.addColumn nm dt nn =>
    match extract_column nm dt nn schema_name table_name
        (Int.ofNat t.columns.length + 1) with
    | some c => { t with columns := t.columns ++ [c] }
    | none => t
  | AlterAction.dropColumn nm =>
    { t with columns :=
        t.columns.filter (fun c => pyUpper c.column_name ≠ pyUpper nm) }
  | AlterAction.renameColumn old_name new_name =>
    { t with columns := t.columns.map (fun c =>
        if pyUpper c.column_name = pyUpper old_name
        then { c with column_name := pyUpper new_name } else c) }
  | AlterAction.alterColumn nm dt an =>
    { t with columns := t.columns.map (fun c =>
        if pyUpper c.column_name = pyUpper nm then
          let c1 := match dt with
            | some d => { c with data_type := pyUpper d }
            | none => c
          match an with
          | some b => { c1 with is_nullable := b }
          | none => c1
        else c) }

/-- One statement of the loop body of `parse_ddl_to_schema`:
CREATE registers or replaces under `(schema, name)`; ALTER applies its
actions only when the key resolves and the table is known; anything else is
skipped. -/
def process_ddl_stmt (m : List ((String × String) × TableSchema)) :
    DDLStmt → List ((String × String) × TableSchema)
  | DDLStmt.create (some t) => aupsertKT m (t.schema_name, t.table_name) t
  | DDLStmt.create none => m
  | DDLStmt.alter schema_name table_name actions =>
    if schema_name = "" ∨ table_name = "" then m
    else
      match alookupKT m (schema_name, table_name) with
      | some t =>
        aupsertKT m (schema_name, table_name)
          (actions.foldl (apply_alter_action schema_name table_name) t)
      | none => m
  | DDLStmt.unsupportedStmt => m

/-- `parse_ddl_to_schema` from `scia/sql/ddl_parser.py`.  The dict is
seeded from `base_schemas` before the `try` block; preprocessing plus
`sqlglot.parse` — the only calls inside the `try` whose exceptions reach
the outer handler, since every per-statement helper catches its own — are
abstracted as `parse_result`.  The `except Exception` branch returns the
empty list. -/
def parse_ddl_to_schema (parse_result : Except PyExc (List DDLStmt))
    (base_schemas : List TableSchema) : List TableSchema :=
  let schemas := base_schemas.foldl (fun m s =>
    aupsertKT m
      (if s.schema_name = "" then "PUBLIC" else s.schema_name, s.table_name)
      s) []
  match parse_result with
  | Except.error _ => []
  | Except.ok stmts => (stmts.foldl process_ddl_stmt schemas).map Prod.snd

/-! ## Impact analysis (`src/scia/core/impact.py`) -/

/-- `parse_identifier` from `scia/core/utils.py`. -/
def parse_identifier (identifier : String) : String × String × String :=
  if identifier = "" then ("", "", "")
  else
    match pySplitDot identifier with
    | [a, b, c] => (a, b, c)
    | [a, b] => ("", a, b)
    | _ => ("", "", identifier)

/-- The fully qualified view name built inside the BFS loop of
`analyze_downstream` (string truthiness decides the shape, then
`.upper()`). -/
def fullViewName (database schema view_name : String) : String :=
  if database ≠ "" ∧ schema ≠ "" then
    pyUpper (database ++ "." ++ schema ++ "." ++ view_name)
  else if schema ≠ "" then pyUpper (schema ++ "." ++ view_name)
  else pyUpper view_name

/-- `target_matches` from `analyze_downstream`: the current object and,
when it is dotted, its last component. -/
def targetMatches (current_obj : String) : List String :=
  if pyContainsChar current_obj '.' then
    [current_obj, (pySplitDot current_obj).getLastD current_obj]
  else [current_obj]

/-- The match test of the BFS loop: some reference of the view SQL,
upper-cased, lies in `target_matches`. -/
def viewMatches (ptr : String → List String) (current_obj sql : String) :
    Bool :=
  ((ptr sql).map pyUpper).any (fun r => (targetMatches current_obj).contains r)

/-- The inner `for view_name, sql in views.items()` pass of
`analyze_downstream` for one dequeued object: returns the views matched
(and therefore appended) during this pass, in iteration order; `processed`
grows by each match as the source's `processed_objects.add` does. -/
def bfsScan (ptr : String → List String) (database schema current_obj : String) :
    List (String × String) → List String → List (String × String)
  | [], _ => []
  | (view_name, sql) :: rest, processed =>
    if fullViewName database schema view_name ∈ processed then
      bfsScan ptr database schema current_obj rest processed
    else if viewMatches ptr current_obj sql then
      (view_name, sql) :: bfsScan ptr database schema current_obj rest
        (processed ++ [fullViewName database schema view_name])
    else bfsScan ptr database schema current_obj rest processed

/-- Number of view full names not yet processed; the decreasing measure of
the BFS: every enqueue adds a fresh full name to `processed`. -/
def countNew (full_names processed : List String) : Nat :=
  (full_names.filter (fun n => !(decide (n ∈ processed)))).length

/-- Filtering with a stronger predicate never yields a longer list. -/
def filterLengthLe {α : Type} (p q : α → Bool)
    (himp : ∀ a, q a = true → p a = true) :
    ∀ L : List α, (L.filter q).length ≤ (L.filter p).length := by
  intro L
  induction L with
  | nil => simp
  | cons a tl ih =>
    by_cases hq : q a = true
    · have hp := himp a hq
      simp [List.filter_cons, hq, hp, ih, Nat.succ_le_succ]
    · have hq' : q a = false := by revert hq; cases q a <;> simp
      by_cases hp : p a = true
      · simp [List.filter_cons, hq', hp]
        exact Nat.le_succ_of_le ih
      · have hp' : p a = false := by revert hp; cases p a <;> simp
        simp [List.filter_cons, hq', hp', ih]

/-- Filtering with a stronger predicate strictly shortens the list when
some member passes the weak predicate but fails the strong one. -/
def filterLengthLt {α : Type} (p q : α → Bool)
    (himp : ∀ a, q a = true → p a = true) :
    ∀ (L : List α) (x : α), x ∈ L → p x = true → q x = false →
      (L.filter q).length < (L.filter p).length := by
  intro L
  induction L with
  | nil => intro x hx; exact absurd hx (List.not_mem_nil x)
  | cons a tl ih =>
    intro x hx hpx hqx
    rcases List.mem_cons.mp hx with hxa | hxtl
    · subst hxa
      simp [List.filter_cons, hqx, hpx]
      exact Nat.lt_succ_of_le (filterLengthLe p q himp tl)
    · have hlt := ih x hxtl hpx hqx
      by_cases hq : q a = true
      · have hp := himp a hq
        simp [List.filter_cons, hq, hp]
        exact hlt
      · have hq' : q a = false := by revert hq; cases q a <;> simp
        by_cases hp : p a = true
        · simp [List.filter_cons, hq', hp]
          exact Nat.lt_succ_of_lt hlt
        · have hp' : p a = false := by revert hp; cases p a <;> simp
          simp [List.filter_cons, hq', hp', hlt]

/-- Every view returned by a `bfsScan` pass comes from the scanned list,
was unprocessed when reached, and matched the current object. -/
def bfsScan_props (ptr : String → List String)
    (database schema current_obj : String) :
    ∀ (vs : List (String × String)) (processed : List String),
      ∀ v ∈ bfsScan ptr database schema current_obj vs processed,
        v ∈ vs ∧ fullViewName database schema v.1 ∉ processed ∧
          viewMatches ptr current_obj v.2 = true := by
  intro vs
  induction vs with
  | nil => intro processed v hv; simp [bfsScan] at hv
  | cons hd tl ih =>
    intro processed v hv
    obtain ⟨view_name, sql⟩ := hd
    rw [bfsScan] at hv
    by_cases hmem : fullViewName database schema view_name ∈ processed
    · rw [if_pos hmem] at hv
      obtain ⟨h1, h2, h3⟩ := ih processed v hv
      exact ⟨List.mem_cons_of_mem _ h1, h2, h3⟩
    · rw [if_neg hmem] at hv
      by_cases hm : viewMatches ptr current_obj sql = true
      · rw [if_pos hm] at hv
        rcases List.mem_cons.mp hv with hveq | hvtl
        · subst hveq
          exact ⟨List.mem_cons_self _ _, hmem, hm⟩
        · obtain ⟨h1, h2, h3⟩ := ih _ v hvtl
          refine ⟨List.mem_cons_of_mem _ h1, fun hc => h2 ?_, h3⟩
          exact List.mem_append_left _ hc
      · rw [if_neg hm] at hv
        obtain ⟨h1, h2, h3⟩ := ih processed v hv
        exact ⟨List.mem_cons_of_mem _ h1, h2, h3⟩

/-- Membership in a longer processed list refutes membership in a shorter
one (contrapositive form used by the termination argument). -/
def notMemOfAppend {α : Type} [DecidableEq α] (p q : List α) :
    ∀ a : α, (!(decide (a ∈ p ++ q) : Bool)) = true →
      (!(decide (a ∈ p) : Bool)) = true := by
  intro a h
  simp only [Bool.not_eq_true', decide_eq_false_iff_not] at h ⊢
  exact fun hc => h (List.mem_append_left _ hc)

/-- The `while queue` loop of `analyze_downstream`
(`scia/core/impact.py` lines 41-77): pop from the front; at depth ≥
`max_depth` the entry is dropped; otherwise scan all views, append a
`DependencyObject` per newly matched view, remember its full name, and
enqueue it at depth + 1.  Termination: each iteration either shortens the
queue or strictly enlarges the processed subset of the finite view list. -/
def bfsLoop (views : List (String × String)) (ptr : String → List String)
    (database schema : String) (max_depth : Nat)
    (queue : List (String × Nat)) (processed : List String) :
    List DependencyObject :=
  match queue with
  | [] => []
  | (current_obj, depth) :: rest =>
    if depth ≥ max_depth then
      bfsLoop views ptr database schema max_depth rest processed
    else
      let matched := bfsScan ptr database schema current_obj views processed
      matched.map (fun v =>
        { object_type := "VIEW", name := v.1, schema_name := schema,
          is_critical := false }) ++
      bfsLoop views ptr database schema max_depth
        (rest ++ matched.map (fun v =>
          (fullViewName database schema v.1, depth + 1)))
        (processed ++ matched.map (fun v => fullViewName database schema v.1))
termination_by
  (countNew (views.map (fun v => fullViewName database schema v.1)) processed,
   queue.length)
decreasing_by
  · apply Prod.Lex.right
    simp
  · rcases hM : bfsScan ptr database schema current_obj views processed with
      _ | ⟨v, M'⟩
    · simp only [List.map_nil, List.append_nil]
      apply Prod.Lex.right
      simp
    · apply Prod.Lex.left
      have hv := bfsScan_props ptr database schema current_obj views processed
        v (by rw [hM]; exact List.mem_cons_self _ _)
      obtain ⟨hvviews, hvfresh, _⟩ := hv
      apply filterLengthLt _ _ (notMemOfAppend _ _)
        _ (fullViewName database schema v.1)
      · exact List.mem_map_of_mem _ hvviews
      · simp only [Bool.not_eq_true', decide_eq_false_iff_not]
        exact hvfresh
      · simp only [Bool.not_eq_false', decide_eq_true_eq]
        exact List.mem_append_right _
          (List.mem_map_of_mem _ (List.mem_cons_self _ _))

/-- `analyze_downstream` from `scia/core/impact.py`.  The adapter is
abstracted by the view dictionary returned by `fetch_views` (fetched once,
before the loop) and by `parse_table_references` as the function `ptr`. -/
def analyze_downstream (changed_table : String)
    (views : List (String × String)) (ptr : String → List String)
    (max_depth : Nat) : List DependencyObject :=
  let dst := parse_identifier changed_table
  bfsLoop views ptr dst.1 dst.2.1 max_depth
    [(pyUpper changed_table, 0)] [pyUpper changed_table]

/-- A foreign-key row as returned by `fetch_foreign_keys` (the source reads
it with `fk.get(key, "")`, so absent keys behave as empty strings). -/
structure ForeignKey where
  constraint_name : String := ""
  table_name : String := ""
  column_name : String := ""
  referenced_table : String := ""
  referenced_column : String := ""
deriving DecidableEq, Repr

/-- `analyze_upstream` from `scia/core/impact.py`: foreign keys whose
`table_name` matches the changed table yield critical TABLE dependencies
on their referenced tables. -/
def analyze_upstream (changed_table : String) (fks : List ForeignKey) :
    List DependencyObject :=
  let dst := parse_identifier changed_table
  if dst.2.2 = "" then []
  else
    fks.foldl (fun acc fk =>
      if pyUpper fk.table_name = pyUpper dst.2.2 then
        acc ++ [{ object_type := "TABLE", name := fk.referenced_table,
                  schema_name := dst.2.1, is_critical := true }]
      else acc) []

/-- Which objects the BFS of `analyze_downstream` can discover, and at
which depth: the root at depth 0, and, inductively, the full name of any
view whose SQL references an object discovered one level earlier.  This is
the specification-side notion of "discovered at BFS depth k". -/
inductive Reaches (views : List (String × String))
    (ptr : String → List String) (database schema root : String) :
    String → Nat → Prop where
  | refl : Reaches views ptr database schema root root 0
  | step {obj : String} {k : Nat} {view_name sql : String} :
      Reaches views ptr database schema root obj k →
      (view_name, sql) ∈ views →
      viewMatches ptr obj sql = true →
      Reaches views ptr database schema root
        (fullViewName database schema view_name) (k + 1)

/-! ## Finding enrichment (`src/scia/core/analyze.py`, lines 49-87) -/

/-- `finding.evidence.get(k)`: `None` both for a missing key and for a
stored `None`; only truthiness and the string value are consumed. -/
def ev_get (evidence : List (String × Option String)) (k : String) :
    Option String :=
  match alookup evidence k with
  | some (some s) => some s
  | _ => none

/-- The two shapes in `final_findings`: pass-through findings and enriched
findings (`EnrichedFinding` carries the impact detail; the adjusted score
is recorded as passed to the constructor). -/
inductive AnalyzedFinding where
  | plain (f : Finding)
  | enriched (f : Finding) (risk_score : Int) (impact_detail : ImpactDetail)
deriving DecidableEq, Repr

/-- The enrichment loop of `analyze` (`scia/core/analyze.py` lines 49-87).
The adapter calls are abstracted as `downstreamOf`/`upstreamOf` applied to
the lookup name.  For a table-bearing finding the source builds the
`ImpactDetail`, reads `finding.risk_score` (an `AttributeError`, see
`finding_risk_score`), applies the blast-radius discount
`int(risk_score * 0.75)` — exact on floats, hence truncated `3/4` — and
wraps the result; findings without a truthy table pass through. -/
def enrich_findings (downstreamOf upstreamOf : String → List DependencyObject) :
    List Finding → Except PyExc (List AnalyzedFinding)
  | [] => Except.ok []
  | finding :: rest => do
    let table_name := ev_get finding.evidence "table"
    let schema_name := ev_get finding.evidence "schema"
    if optStrTruthy table_name then do
      let tn := table_name.getD ""
      let lookup_name :=
        if optStrTruthy schema_name then schema_name.getD "" ++ "." ++ tn
        else tn
      let downstream := downstreamOf lookup_name
      let upstream := upstreamOf lookup_name
      let impact :=
        impactDetail_init downstream [] upstream [] (Int.ofNat downstream.length)
      let adjusted_score ← finding_risk_score finding
      let adjusted_score :=
        if impact.estimated_blast_radius = 0 ∧ finding.base_risk > 0 then
          Int.tdiv (adjusted_score * 3) 4
        else adjusted_score
      let tail ← enrich_findings downstreamOf upstreamOf rest
      Except.ok (AnalyzedFinding.enriched finding adjusted_score impact :: tail)
    else do
      let tail ← enrich_findings downstreamOf upstreamOf rest
      Except.ok (AnalyzedFinding.plain finding :: tail)

/-! ## Input resolution (`src/scia/input/resolver.py`) -/

/-- `_is_valid_identifier` from `scia/input/resolver.py`: strip symmetric
double or back quotes, drop underscores and hyphens, then Python
`isalnum` (non-empty and all alphanumeric). -/
def is_valid_identifier (name : String) : Bool :=
  if name = "" then false
  else
    let stripped :=
      if (pyStartsWith name "\"" && pyEndsWith name "\"")
         || (pyStartsWith name "`" && pyEndsWith name "`") then
        (⟨(name.data.drop 1).dropLast⟩ : String)
      else name
    let cleaned :=
      (stripped.data.filter (fun ch => ch ≠ '_')).filter (fun ch => ch ≠ '-')
    decide (cleaned ≠ []) && cleaned.all Char.isAlphanum

/-- `Path(s).suffix` restricted to what `_detect_format` consumes: the
extension (with leading dot) of the final path component, empty for
dotless or leading-dot-only names.  The exact pathlib corner cases do not
affect which of the three format strings `_detect_format` returns. -/
def path_suffix (s : String) : String :=
  let base := (splitOnChar '/' s.data).getLastD []
  match splitOnChar '.' base with
  | [] => ""
  | [_] => ""
  | parts =>
    if base.headD ' ' = '.' ∧ parts.length = 2 then ""
    else ⟨'.' :: parts.getLastD []⟩

/-- `_detect_format` from `scia/input/resolver.py`; the filesystem is the
oracle `path_exists` (`os.path.exists`). -/
def detect_format (path_exists : String → Bool) (input_str : String) :
    String :=
  let input_lower := pyLower input_str
  if pyEndsWith input_lower ".json" then "json"
  else if pyEndsWith input_lower ".sql" then "sql"
  else if pyContainsChar input_str '.' && !pyStartsWith input_str "."
          && ((pySplitDot input_str).length = 2
              || (pySplitDot input_str).length = 3 : Bool)
          && (pySplitDot input_str).all is_valid_identifier then "database"
  else if path_exists input_str || path_exists (input_str ++ ".json")
          || path_exists (input_str ++ ".sql") then
    if path_exists input_str
       && decide (pyLower (path_suffix input_str) = ".json") then "json"
    else if path_exists input_str
            && decide (pyLower (path_suffix input_str) = ".sql") then "sql"
    else "json"
  else if pyContainsChar input_str '.' then "database"
  else "json"

/-- `InputType` from `scia/input/resolver.py`. -/
inductive InputType where
  | JSON
  | SQL
  | DATABASE
deriving DecidableEq, Repr

/-- The `.value` strings of `InputType`. -/
def InputType.value : InputType → String
  | InputType.JSON => "json"
  | InputType.SQL => "sql"
  | InputType.DATABASE => "database"

/-- The distinct `InputResolutionError` raises of `resolve_input` and
`_validate_input_exists`. -/
inductive InputResolutionError where
  | missingWarehouse
  | unsupportedCombination (before_format after_format : String)
  | inputNotFound (path : String)
deriving DecidableEq, Repr

/-- The metadata dictionary built by `resolve_input` (the `warehouse` key
is present only when the argument is truthy). -/
structure ResolveMetadata where
  before_source : String
  after_source : String
  before_format : String
  after_format : String
  input_type : String
  warehouse : Option String := none
deriving DecidableEq, Repr

/-- `_validate_input_exists` from `scia/input/resolver.py`. -/
def validate_input_exists (path_exists : String → Bool)
    (input_str input_format : String) : Except InputResolutionError Unit :=
  if input_format = "database" then Except.ok ()
  else if path_exists input_str then Except.ok ()
  else Except.error (InputResolutionError.inputNotFound input_str)

/-- `resolve_input` from `scia/input/resolver.py`.  `warehouse` is checked
by truthiness (`None` and `""` both fail). -/
def resolve_input (path_exists : String → Bool) (before after : String)
    (warehouse : Option String) :
    Except InputResolutionError (InputType × ResolveMetadata) := do
  let before_format := detect_format path_exists before
  let after_format := detect_format path_exists after
  let input_type ←
    if before_format = "json" ∧ after_format = "json" then
      pure InputType.JSON
    else if before_format = "sql" ∨ after_format = "sql" then
      pure InputType.SQL
    else if before_format = "database" ∨ after_format = "database" then
      if optStrTruthy warehouse = false then
        Except.error InputResolutionError.missingWarehouse
      else pure InputType.DATABASE
    else
      Except.error
        (InputResolutionError.unsupportedCombination before_format after_format)
  let _ ← validate_input_exists path_exists before before_format
  let _ ← validate_input_exists path_exists after after_format
  let metadata : ResolveMetadata :=
    { before_source := before, after_source := after,
      before_format := before_format, after_format := after_format,
      input_type := input_type.value,
      warehouse := if optStrTruthy warehouse then warehouse else none }
  pure (input_type, metadata)

/-! ## Concrete sample data used by the evaluation theorems -/

/-- A concrete column (schema `A`, table `T`, column `C`, type `INT`). -/
def sampleColumn : ColumnSchema :=
  { schema_name := "A", table_name := "T", column_name := "C",
    data_type := "INT", is_nullable := true, ordinal_position := 1 }

/-- A concrete one-column table in schema `A`. -/
def sampleTable : TableSchema :=
  { schema_name := "A", table_name := "T", columns := [sampleColumn] }

/-- The same table with the schema name case-swapped to `a`. -/
def sampleTableLower : TableSchema := { sampleTable with schema_name := "a" }

/-- A concrete COLUMN_REMOVED finding with table-bearing evidence, as
`rule_column_removed` would emit it. -/
def sampleFinding : Finding :=
  { finding_type := FindingType.COLUMN_REMOVED, severity := Severity.HIGH,
    base_risk := 80,
    evidence := [("schema", some "A"), ("table", some "T"),
                 ("column", some "C")],
    description := "Column removed from table." }

/-- A concrete dependency object. -/
def sampleDep : DependencyObject :=
  { object_type := "TABLE", name := "PARENT", schema_name := "S",
    is_critical := true }

/-- A concrete foreign-key row on table `T` referencing `PARENT`. -/
def sampleFK : ForeignKey :=
  { constraint_name := "fk1", table_name := "T", column_name := "C",
    referenced_table := "PARENT", referenced_column := "ID" }

/-- A diff holding exactly one SCHEMA REMOVED change. -/
def sampleSchemaRemovedDiff : SchemaDiff :=
  ⟨[{ object_type := "SCHEMA", schema_name := "PUBLIC",
      change_type := "REMOVED" }]⟩

/-! ## Theorems -/

/-- Claim C1: for every findings list, the raw total is the sum of the
findings' risk scores (falling back to `base_risk` when absent), and the
normalized score is the saturating floor, zero at zero, within `[0,100]`
and monotone.  The code refutes the raw-total part: the comprehension in
`RiskAssessment.__init__` reads `f.risk_score`, an attribute the `Finding`
model never declares, so construction raises `AttributeError` on any
non-empty findings list — the repository's own `tests/test_risk.py`
expects `base_risk` to be used instead (a score of 44 here). -/
theorem riskAssessment_init_attribute_error :
    riskAssessment_init [sampleFinding] [] =
      Except.error (PyExc.attributeError "risk_score") := rfl

/-- Claim C2: `apply_rules` is claimed never to raise and to emit
HIGH/100, LOW/0, HIGH/90, LOW/0 findings for SCHEMA and TABLE changes.
On a diff holding one SCHEMA REMOVED change the first rule evaluates
`FindingType.SCHEMA_REMOVED`, a member the enum does not declare, so the
engine raises `AttributeError` — while `tests/test_rules.py` expects a
HIGH `SCHEMA_REMOVED` finding. -/
theorem apply_rules_schema_removed_attribute_error :
    apply_rules sampleSchemaRemovedDiff none =
      Except.error (PyExc.attributeError "SCHEMA_REMOVED") := rfl

/-- Claim C3: the enrichment loop is claimed to discount `risk_score` by
0.75 for table-bearing findings with empty blast radius.  The code reads
`finding.risk_score` (line 76 of `scia/core/analyze.py`) before applying
the discount, and `Finding` declares no such attribute, so enrichment
raises `AttributeError` for every table-bearing finding — here one with
`base_risk` 80 and no downstream dependents, where the intended result is
a score of 60. -/
theorem enrich_findings_attribute_error :
    enrich_findings (fun _ => []) (fun _ => []) [sampleFinding] =
      Except.error (PyExc.attributeError "risk_score") := rfl

/-- Claim C4: the impact detail attached to an enriched finding is claimed
to carry `upstream_dependencies` (with the FK-derived dependencies of
`analyze_upstream`) and `downstream_tables`.  The `ImpactDetail` model
declares neither field, so the constructor call in `analyze` silently
drops the upstream list: here `analyze_upstream` produces a non-empty
dependency list, yet the constructed detail is indistinguishable from one
built with no upstream dependencies at all. -/
theorem impactDetail_init_drops_upstream :
    analyze_upstream "S.T" [sampleFK] =
      [{ object_type := "TABLE", name := "PARENT", schema_name := "S",
         is_critical := true }] ∧
    impactDetail_init [] [] (analyze_upstream "S.T" [sampleFK]) [] 0 =
      impactDetail_init [] [] [] [] 0 := ⟨rfl, rfl⟩

/-- Claim C6 counterexample: the DDL front end is claimed to return, on
any exception, everything accumulated so far including supplied base
tables.  When parsing raises (modelled by an erroring parse result), the
`except` branch of `parse_ddl_to_schema` returns the empty list, so the
supplied base table is not in the result. -/
theorem parse_ddl_error_drops_base :
    parse_ddl_to_schema (Except.error PyExc.parseError) [sampleTable] = [] ∧
    sampleTable ∉ parse_ddl_to_schema (Except.error PyExc.parseError)
      [sampleTable] := by
  refine ⟨rfl, ?_⟩
  rw [show parse_ddl_to_schema (Except.error PyExc.parseError) [sampleTable]
        = [] from rfl]
  exact List.not_mem_nil _

/-- Claim C6 amended: `parse_ddl_to_schema` catches every exception raised
during parsing and never propagates it, but on such an exception it
returns the empty list, discarding both the supplied base tables and
anything accumulated. -/
theorem parse_ddl_catches_and_returns_empty (e : PyExc)
    (base_schemas : List TableSchema) :
    parse_ddl_to_schema (Except.error e) base_schemas = [] := rfl

/-- Claim C7: the signal extractor is claimed never to raise, regardless
of which exception the underlying parser raises.  `parse_sql` catches only
`AttributeError`, `ValueError` and `TypeError`; `sqlglot.errors.ParseError`
(raised for example on the unbalanced input `"("`) is none of those, so it
propagates out of `extract_signals` — contradicting the function's own
docstring ("Never raises fatal exception, returns None on failure"). -/
theorem extract_signals_propagates_parse_error :
    extract_signals (fun _ => Except.error PyExc.parseError) [("q", "(")] =
      Except.error PyExc.parseError := rfl

/-- The key union of a set with itself is the key list itself. -/
theorem unionKeys_self (xs : List String) : unionKeys xs xs = xs := by
  unfold unionKeys
  rw [List.filter_eq_nil_iff.mpr, List.append_nil]
  intro a ha
  simp [ha]

/-- A key occurring in an association list resolves to some value. -/
theorem alookup_of_mem_keys {α : Type} (m : List (String × α)) (k : String)
    (hk : k ∈ akeys m) : ∃ v, alookup m k = some v := by
  induction m with
  | nil => simp [akeys] at hk
  | cons hd tl ih =>
    obtain ⟨k', v⟩ := hd
    by_cases he : k' = k
    · exact ⟨v, by simp [alookup, he]⟩
    · have : k ∈ akeys tl := by
        simp [akeys] at hk ⊢
        rcases hk with h | h
        · exact absurd h.symm he
        · exact h
      obtain ⟨w, hw⟩ := ih this
      exact ⟨w, by simp [alookup, he, hw]⟩

/-- A flat map over entry-wise empty outputs is empty. -/
theorem flatMap_nil_of_forall {α β : Type} (l : List α) (f : α → List β)
    (h : ∀ a ∈ l, f a = []) : l.flatMap f = [] := by
  induction l with
  | nil => rfl
  | cons a tl ih =>
    rw [List.flatMap_cons, h a (List.mem_cons_self _ _), List.nil_append]
    exact ih (fun x hx => h x (List.mem_cons_of_mem _ hx))

/-- A diff-shaped flat map over the union of the keys of one map with
itself vanishes whenever the entry comparison vanishes on equal values. -/
theorem flatMap_lookup_self_nil {α : Type} (m : List (String × α))
    (f : String → Option α → Option α → List SchemaChange)
    (hf : ∀ k v, f k (some v) (some v) = []) :
    (unionKeys (akeys m) (akeys m)).flatMap
      (fun k => f k (alookup m k) (alookup m k)) = [] := by
  rw [unionKeys_self]
  apply flatMap_nil_of_forall
  intro k hk
  obtain ⟨v, hv⟩ := alookup_of_mem_keys m k hk
  rw [hv]
  exact hf k v

/-- Comparing a column with itself yields no change. -/
theorem columnChange_self (s t k : String) (c : ColumnSchema) :
    columnChange s t k (some c) (some c) = [] := by
  simp [columnChange]

/-- Comparing a table's columns with themselves yields no change. -/
theorem process_column_level_diff_self (s t : String) (tb : TableSchema) :
    process_column_level_diff s t tb tb = [] := by
  unfold process_column_level_diff
  exact flatMap_lookup_self_nil _ _ (columnChange_self s t)

/-- Comparing a table entry with itself yields no change. -/
theorem tableChange_self (s k : String) (tb : TableSchema) :
    tableChange s k (some tb) (some tb) = [] :=
  process_column_level_diff_self s k tb

/-- Comparing a schema's tables with themselves yields no change. -/
theorem diffSharedSchema_self (s : String) (ts : List TableSchema) :
    diffSharedSchema s ts ts = [] := by
  unfold diffSharedSchema
  exact flatMap_lookup_self_nil _ _ (tableChange_self s)

/-- Comparing a present schema with itself yields no change. -/
theorem schemaChangeFor_self (k : String) (ts : List TableSchema) :
    schemaChangeFor k (some ts) (some ts) = [] :=
  diffSharedSchema_self k ts

/-- Claim C9: diffing any table list against itself produces an empty
change list. -/
theorem diff_schemas_self_empty (S : List TableSchema) :
    diff_schemas S S = ⟨[]⟩ := by
  simp only [diff_schemas]
  congr 1
  exact flatMap_lookup_self_nil _ _ schemaChangeFor_self

/-- Claim C8 counterexample: the differ is claimed to compare names
case-insensitively, so that swapping the case of an identifier yields
identical findings.  Swapping only the case of the schema name (`A` to
`a`) in the after input turns the empty diff into a SCHEMA REMOVED plus
SCHEMA ADDED pair, and the findings change from `ok []` to an exception:
the comparison is an exact string comparison. -/
theorem diff_case_swap_changes_findings :
    diff_schemas [sampleTable] [sampleTable] = ⟨[]⟩ ∧
    diff_schemas [sampleTable] [sampleTableLower] =
      ⟨[{ object_type := "SCHEMA", schema_name := "A",
          change_type := "REMOVED" },
        { object_type := "SCHEMA", schema_name := "a",
          change_type := "ADDED" }]⟩ ∧
    apply_rules (diff_schemas [sampleTable] [sampleTableLower]) none =
      Except.error (PyExc.attributeError "SCHEMA_REMOVED") ∧
    apply_rules (diff_schemas [sampleTable] [sampleTable]) none =
      Except.ok [] ∧
    diff_schemas [sampleTable] [sampleTableLower] ≠
      diff_schemas [sampleTable] [sampleTable] := by
  refine ⟨rfl, rfl, rfl, rfl, ?_⟩
  decide

/-- Claim C8 amended: the differ compares schema, table and column names
by exact (case-sensitive) string equality; renaming the schema of a table
to any different string — in particular a case swap — produces a SCHEMA
REMOVED change for the old name and a SCHEMA ADDED change for the new
one instead of an empty diff. -/
theorem diff_schemas_schema_rename (t : TableSchema) (s' : String)
    (h : s' ≠ t.schema_name) :
    diff_schemas [t] [{ t with schema_name := s' }] =
      ⟨[{ object_type := "SCHEMA", schema_name := t.schema_name,
          change_type := "REMOVED" },
        { object_type := "SCHEMA", schema_name := s',
          change_type := "ADDED" }]⟩ := by
  have h' : t.schema_name ≠ s' := fun hc => h hc.symm
  simp [diff_schemas, groupTables, addToGroup, alookup, akeys, unionKeys,
        schemaChangeFor, h, h']

/-- Witness for the amended claim C8, at the concrete table in schema `A`
and the case-swapped name `a`. -/
theorem diff_schemas_schema_rename_witness :
    ("a" : String) ≠ sampleTable.schema_name ∧
    diff_schemas [sampleTable] [{ sampleTable with schema_name := "a" }] =
      ⟨[{ object_type := "SCHEMA", schema_name := sampleTable.schema_name,
          change_type := "REMOVED" },
        { object_type := "SCHEMA", schema_name := "a",
          change_type := "ADDED" }]⟩ :=
  ⟨by decide, diff_schemas_schema_rename sampleTable "a" (by decide)⟩

/-- Every branch of `_detect_format` returns one of the three format
strings. -/
theorem detect_format_mem (px : String → Bool) (s : String) :
    detect_format px s = "json" ∨ detect_format px s = "sql" ∨
      detect_format px s = "database" := by
  simp only [detect_format]
  split_ifs <;> simp

/-- Binding a success in the `Except` monad applies the continuation. -/
theorem except_bind_ok {ε α β : Type} (a : α) (f : α → Except ε β) :
    (Except.ok a : Except ε α) >>= f = f a := rfl

/-- Binding a failure in the `Except` monad propagates it. -/
theorem except_bind_err {ε α β : Type} (e : ε) (f : α → Except ε β) :
    (Except.error e : Except ε α) >>= f = Except.error e := rfl

/-- The `Unsupported input combination` branch of `resolve_input` is
unreachable: the detected formats always cover one of the three mode
checks. -/
theorem resolve_input_not_unsupported (px : String → Bool)
    (before after : String) (w : Option String) (bf af : String) :
    resolve_input px before after w ≠
      Except.error (InputResolutionError.unsupportedCombination bf af) := by
  intro hc
  rcases detect_format_mem px before with hb | hb | hb <;>
    rcases detect_format_mem px after with ha | ha | ha <;>
      simp [resolve_input, hb, ha, validate_input_exists] at hc <;>
      (try split_ifs at hc) <;>
      simp [except_bind_ok, except_bind_err] at hc

/-- Claim C10: `_detect_format` always returns one of `json`, `sql` or
`database`, and consequently `resolve_input` never reaches its
`Unsupported input combination` branch: for every filesystem oracle and
every pair of inputs it returns an `(InputType, metadata)` pair, or fails
with the missing-warehouse error of database mode, or with a
file-not-found error for a json/sql input. -/
theorem detect_format_total_and_resolve_input_shape :
    (∀ (px : String → Bool) (s : String),
        detect_format px s = "json" ∨ detect_format px s = "sql" ∨
          detect_format px s = "database") ∧
    (∀ (px : String → Bool) (before after : String) (w : Option String),
        (∃ v, resolve_input px before after w = Except.ok v) ∨
        resolve_input px before after w =
          Except.error InputResolutionError.missingWarehouse ∨
        (∃ p, resolve_input px before after w =
          Except.error (InputResolutionError.inputNotFound p))) := by
  refine ⟨detect_format_mem, ?_⟩
  intro px before after w
  rcases hres : resolve_input px before after w with E | v
  case ok => exact Or.inl ⟨v, rfl⟩
  · cases E with
    | missingWarehouse => exact Or.inr (Or.inl rfl)
    | unsupportedCombination x y =>
      exact absurd hres (resolve_input_not_unsupported px before after w x y)
    | inputNotFound p => exact Or.inr (Or.inr ⟨p, rfl⟩)

/-- The full names of the views matched during one scan pass are pairwise
distinct and all fresh with respect to the incoming processed set. -/
theorem bfsScan_names (ptr : String → List String)
    (database schema current_obj : String) :
    ∀ (vs : List (String × String)) (processed : List String),
      ((bfsScan ptr database schema current_obj vs processed).map
          (fun v => fullViewName database schema v.1)).Nodup ∧
      ∀ n ∈ (bfsScan ptr database schema current_obj vs processed).map
          (fun v => fullViewName database schema v.1), n ∉ processed := by
  intro vs
  induction vs with
  | nil =>
    intro processed
    refine ⟨by simp [bfsScan], ?_⟩
    intro n hn
    simp [bfsScan] at hn
  | cons hd tl ih =>
    intro processed
    obtain ⟨view_name, sql⟩ := hd
    rw [bfsScan]
    by_cases hmem : fullViewName database schema view_name ∈ processed
    · rw [if_pos hmem]
      exact ih processed
    · rw [if_neg hmem]
      by_cases hm : viewMatches ptr current_obj sql = true
      · rw [if_pos hm]
        obtain ⟨ihnd, ihfresh⟩ :=
          ih (processed ++ [fullViewName database schema view_name])
        constructor
        · rw [List.map_cons]
          refine List.nodup_cons.mpr ⟨?_, ihnd⟩
          intro hc
          exact ihfresh _ hc
            (List.mem_append_right _ (List.mem_singleton.mpr rfl))
        · intro n hn
          rw [List.map_cons] at hn
          rcases List.mem_cons.mp hn with hn | hn
          · subst hn; exact hmem
          · intro hc
            exact ihfresh n hn (List.mem_append_left _ hc)
      · rw [if_neg hm]
        exact ih processed

/-- Soundness of the BFS loop: when every queue entry is reachable at its
recorded depth, every emitted dependent is a VIEW of the loop's schema
whose full name is reachable from the root within `max_depth` steps. -/
theorem bfsLoop_reach (views : List (String × String))
    (ptr : String → List String) (database schema : String)
    (max_depth : Nat) (root : String) :
    ∀ (queue : List (String × Nat)) (processed : List String),
      (∀ e ∈ queue, Reaches views ptr database schema root e.1 e.2) →
      ∀ dep ∈ bfsLoop views ptr database schema max_depth queue processed,
        dep.object_type = "VIEW" ∧ dep.schema_name = schema ∧
          dep.is_critical = false ∧
          ∃ k, 1 ≤ k ∧ k ≤ max_depth ∧
            Reaches views ptr database schema root
              (fullViewName database schema dep.name) k := by
  intro queue processed
  induction queue, processed using bfsLoop.induct views ptr database schema max_depth with
  | case1 processed =>
    intro _ dep hdep
    rw [bfsLoop] at hdep
    exact absurd hdep (List.not_mem_nil dep)
  | case2 processed current_obj depth rest hge ih =>
    intro hq dep hdep
    rw [bfsLoop, if_pos hge] at hdep
    exact ih (fun e he => hq e (List.mem_cons_of_mem _ he)) dep hdep
  | case3 processed current_obj depth rest hge matched ih =>
    intro hq dep hdep
    rw [bfsLoop, if_neg hge] at hdep
    have hdlt : depth < max_depth := Nat.lt_of_not_le hge
    have hcur : Reaches views ptr database schema root current_obj depth :=
      hq (current_obj, depth) (List.mem_cons_self _ _)
    rcases List.mem_append.mp hdep with hnew | hrec
    · obtain ⟨v, hvmem, hveq⟩ := List.mem_map.mp hnew
      obtain ⟨hvviews, _, hvmatch⟩ :=
        bfsScan_props ptr database schema current_obj views processed v hvmem
      subst hveq
      refine ⟨rfl, rfl, rfl, depth + 1, Nat.succ_le_succ (Nat.zero_le _),
        Nat.succ_le_of_lt hdlt, ?_⟩
      exact Reaches.step hcur hvviews hvmatch
    · refine ih ?_ dep hrec
      intro e he
      rcases List.mem_append.mp he with he | he
      · exact hq e (List.mem_cons_of_mem _ he)
      · obtain ⟨v, hvmem, hveq⟩ := List.mem_map.mp he
        obtain ⟨hvviews, _, hvmatch⟩ :=
          bfsScan_props ptr database schema current_obj views processed v hvmem
        subst hveq
        exact Reaches.step hcur hvviews hvmatch

/-- The full names behind the dependents emitted by the BFS loop are
pairwise distinct, fresh with respect to the incoming processed set, and
all drawn from the view list. -/
theorem bfsLoop_names (views : List (String × String))
    (ptr : String → List String) (database schema : String)
    (max_depth : Nat) :
    ∀ (queue : List (String × Nat)) (processed : List String),
      ((bfsLoop views ptr database schema max_depth queue processed).map
          (fun dep => fullViewName database schema dep.name)).Nodup ∧
      ∀ n ∈ (bfsLoop views ptr database schema max_depth queue
          processed).map (fun dep => fullViewName database schema dep.name),
        n ∉ processed ∧
          n ∈ views.map (fun v => fullViewName database schema v.1) := by
  intro queue processed
  induction queue, processed using bfsLoop.induct views ptr database schema max_depth with
  | case1 processed =>
    rw [bfsLoop]
    refine ⟨by simp, ?_⟩
    intro n hn
    simp at hn
  | case2 processed current_obj depth rest hge ih =>
    rw [bfsLoop, if_pos hge]
    exact ih
  | case3 processed current_obj depth rest hge matched ih =>
    rw [bfsLoop, if_neg hge]
    rw [List.map_append, List.map_map]
    have hcomp :
        ((fun dep : DependencyObject =>
            fullViewName database schema dep.name) ∘
          (fun v : String × String =>
            ({ object_type := "VIEW", name := v.1, schema_name := schema,
               is_critical := false } : DependencyObject))) =
          fun v : String × String => fullViewName database schema v.1 := rfl
    rw [hcomp]
    obtain ⟨hscannd, hscanfresh⟩ :=
      bfsScan_names ptr database schema current_obj views processed
    obtain ⟨ihnd, ihmem⟩ := ih
    have hscanL : ∀ n ∈ (bfsScan ptr database schema current_obj views
        processed).map (fun v => fullViewName database schema v.1),
        n ∈ views.map (fun v => fullViewName database schema v.1) := by
      intro n hn
      obtain ⟨v, hvmem, hveq⟩ := List.mem_map.mp hn
      obtain ⟨hvviews, _, _⟩ :=
        bfsScan_props ptr database schema current_obj views processed v hvmem
      exact hveq ▸ List.mem_map_of_mem _ hvviews
    constructor
    · refine List.Nodup.append hscannd ihnd ?_
      intro n hn hn'
      exact (ihmem n hn').1 (List.mem_append_right _ hn)
    · intro n hn
      rcases List.mem_append.mp hn with hn | hn
      · exact ⟨hscanfresh n hn, hscanL n hn⟩
      · refine ⟨fun hc => (ihmem n hn).1 (List.mem_append_left _ hc),
          (ihmem n hn).2⟩

/-- A duplicate-free list drawn from `L` is no longer than `L`. -/
theorem nodup_subset_length {α : Type} [DecidableEq α] (l L : List α)
    (hnd : l.Nodup) (hsub : ∀ x ∈ l, x ∈ L) : l.length ≤ L.length := by
  calc l.length = l.toFinset.card := (List.toFinset_card_of_nodup hnd).symm
    _ ≤ L.toFinset.card := by
        apply Finset.card_le_card
        intro x hx
        rw [List.mem_toFinset] at hx ⊢
        exact hsub x hx
    _ ≤ L.length := List.toFinset_card_le L

/-- Claim C5: for every view mapping (cyclic reference graphs included)
and every `max_depth`, `analyze_downstream` is a total function whose BFS
loop terminates (it is defined by well-founded recursion on the finite
set of unprocessed view names, so it makes finitely many
`parse_table_references` calls); no view appears more than once among the
returned dependents — in particular at most one dependent per view — and
every returned dependent is a view reachable from the changed table at
some BFS depth `k` with `1 ≤ k ≤ max_depth`. -/
theorem analyze_downstream_spec (changed_table : String)
    (views : List (String × String)) (ptr : String → List String)
    (max_depth : Nat) :
    ((analyze_downstream changed_table views ptr max_depth).map
        (fun dep => dep.name)).Nodup ∧
    (analyze_downstream changed_table views ptr max_depth).length ≤
      views.length ∧
    ∀ dep ∈ analyze_downstream changed_table views ptr max_depth,
      ∃ k, 1 ≤ k ∧ k ≤ max_depth ∧
        Reaches views ptr (parse_identifier changed_table).1
          (parse_identifier changed_table).2.1 (pyUpper changed_table)
          (fullViewName (parse_identifier changed_table).1
            (parse_identifier changed_table).2.1 dep.name) k := by
  have hnames := bfsLoop_names views ptr (parse_identifier changed_table).1
    (parse_identifier changed_table).2.1 max_depth
    [(pyUpper changed_table, 0)] [pyUpper changed_table]
  have hreach := bfsLoop_reach views ptr (parse_identifier changed_table).1
    (parse_identifier changed_table).2.1 max_depth (pyUpper changed_table)
    [(pyUpper changed_table, 0)] [pyUpper changed_table]
    (by
      intro e he
      rw [List.mem_singleton] at he
      subst he
      exact Reaches.refl)
  have hres : analyze_downstream changed_table views ptr max_depth =
      bfsLoop views ptr (parse_identifier changed_table).1
        (parse_identifier changed_table).2.1 max_depth
        [(pyUpper changed_table, 0)] [pyUpper changed_table] := rfl
  rw [hres]
  refine ⟨?_, ?_, ?_⟩
  · have hmm := hnames.1
    rw [show (fun dep : DependencyObject =>
          fullViewName (parse_identifier changed_table).1
            (parse_identifier changed_table).2.1 dep.name) =
        (fun n => fullViewName (parse_identifier changed_table).1
            (parse_identifier changed_table).2.1 n) ∘
          (fun dep : DependencyObject => dep.name) from rfl] at hmm
    rw [← List.map_map] at hmm
    exact List.Nodup.of_map _ hmm
  · have hlen : (bfsLoop views ptr (parse_identifier changed_table).1
        (parse_identifier changed_table).2.1 max_depth
        [(pyUpper changed_table, 0)] [pyUpper changed_table]).length =
        ((bfsLoop views ptr (parse_identifier changed_table).1
          (parse_identifier changed_table).2.1 max_depth
          [(pyUpper changed_table, 0)] [pyUpper changed_table]).map
            (fun dep => fullViewName (parse_identifier changed_table).1
              (parse_identifier changed_table).2.1 dep.name)).length :=
      (List.length_map _ _).symm
    rw [hlen]
    have hsub := fun n hn => (hnames.2 n hn).2
    calc ((bfsLoop views ptr (parse_identifier changed_table).1
          (parse_identifier changed_table).2.1 max_depth
          [(pyUpper changed_table, 0)] [pyUpper changed_table]).map
            (fun dep => fullViewName (parse_identifier changed_table).1
              (parse_identifier changed_table).2.1 dep.name)).length ≤
        (views.map (fun v => fullViewName (parse_identifier changed_table).1
          (parse_identifier changed_table).2.1 v.1)).length :=
          nodup_subset_length _ _ hnames.1 hsub
      _ = views.length := List.length_map _ _
  · intro dep hdep
    obtain ⟨_, _, _, k, hk1, hk2, hkr⟩ := hreach dep hdep
    exact ⟨k, hk1, hk2, hkr⟩
